import Mathlib

/-!
Shallow embedding of the rhask task-orchestration core (registry, resolver,
argument binder, build stack, execution-scope manager) together with proofs
checking the natural-language specification against it.

Conventions of the embedding:
* Rust `String` is Lean `String`; `&str::trim` is modelled over the ASCII
  whitespace characters (space, tab, newline, carriage return).
* `indexmap::IndexMap` is modelled as an association list in insertion order
  (the map invariant of unique keys is maintained by `alistInsert`).
* `rhai::Dynamic` values that flow into the argument binder are modelled as
  `Option String`: `none` is the unit value `()`, `some s` a string value.
* The opaque `rhai::FnPtr` action handle is modelled as a numeric id.
* OS working-directory state (`env::current_dir` / `env::set_current_dir`)
  is modelled as a pure `cwd` field of the execution state; the OS calls are
  modelled as infallible.
-/

namespace Rhask

/-- ASCII whitespace, modelling the characters `str::trim` removes. -/
def isSpaceChar (c : Char) : Bool :=
  c = ' ' || c = '\t' || c = '\n' || c = '\r'

/-- `str::trim` on the character list: drop whitespace at both ends. -/
def trimList (cs : List Char) : List Char :=
  ((cs.dropWhile isSpaceChar).reverse.dropWhile isSpaceChar).reverse

/-- Embedding of Rust `identifier.trim()`. -/
def trim (s : String) : String :=
  ⟨trimList s.data⟩

/-- Embedding of `leaf_name` from `src/task/model/util.rs`:
`path.rsplit('.').next().unwrap_or(path)`, the segment after the last dot. -/
def leaf_name (s : String) : String :=
  ⟨(s.data.reverse.takeWhile (fun c => c ≠ '.')).reverse⟩

/-- Key membership in an association list (`IndexMap::contains_key`). -/
def containsKey {α : Type} (l : List (String × α)) (k : String) : Bool :=
  l.any (fun e => e.fst == k)

/-- Lookup in an association list (`IndexMap::get`). -/
def alistGet {α : Type} (l : List (String × α)) (k : String) : Option α :=
  (l.find? (fun e => e.fst == k)).map Prod.snd

/-- `IndexMap::insert`: replace the value in place when the key is present,
append at the end otherwise. -/
def alistInsert {α : Type} (l : List (String × α)) (k : String) (v : α) :
    List (String × α) :=
  if containsKey l k then
    l.map (fun e => if e.fst == k then (k, v) else e)
  else
    l ++ [(k, v)]

/-- `IndexMap::shift_remove`: drop the entry with the given key, keeping the
order of the remaining entries. -/
def alistErase {α : Type} (l : List (String × α)) (k : String) :
    List (String × α) :=
  l.filter (fun e => ¬ (e.fst == k))

/-- `ParameterSpec` from `src/task/model/task.rs`. -/
structure ParameterSpec where
  name : String
  default : Option String
deriving Repr, DecidableEq

/-- `Task` from `src/task/model/task.rs`; the `FnPtr` action handle is an
opaque numeric id, `PathBuf` a string. -/
structure Task where
  description : Option String := none
  actions : Option Nat := none
  params : List ParameterSpec := []
  working_dir : Option String := none
deriving Repr, DecidableEq

/-- `RegistryEntry` from `src/task/model/group.rs`. -/
inductive RegistryEntry where
  | Task (full_path : String)
  | Group (full_path : String)
deriving Repr, DecidableEq

/-- `Group` from `src/task/model/group.rs`. -/
structure Group where
  description : Option String := none
  entries : List RegistryEntry := []
deriving Repr, DecidableEq

/-- `TaskRegistry` from `src/task/registry/task_registry.rs`; the two
`IndexMap`s are association lists in insertion order. -/
structure TaskRegistry where
  tasks : List (String × Task) := []
  groups : List (String × Group) := []
  root_entries : List RegistryEntry := []
  default_task : Option String := none
deriving Repr, DecidableEq

/-- `TaskLookup` from `src/task/registry/resolver.rs`. -/
inductive TaskLookup where
  | Found (full_path : String)
  | Ambiguous (candidates : List String)
  | NotFound
deriving Repr, DecidableEq

/-- Embedding of `TaskRegistry::resolve_task` from
`src/task/registry/resolver.rs`, including the (dead) re-check of
`contains_task` inside the dotted-identifier branch. -/
def resolve_task (reg : TaskRegistry) (identifier : String) : TaskLookup :=
  let trimmed := trim identifier
  if trimmed = "" then .NotFound
  else if containsKey reg.tasks trimmed then .Found trimmed
  else if trimmed.data.contains '.' then
    if containsKey reg.tasks trimmed then .Found trimmed else .NotFound
  else
    match (reg.tasks.filter (fun e => leaf_name e.fst = trimmed)).map Prod.fst with
    | [] => .NotFound
    | [p] => .Found p
    | p :: q :: rest => .Ambiguous (p :: q :: rest)

/-- Reference resolution algorithm, written from the four steps of the spec:
trim (empty gives NotFound); exact key match gives Found; a dotted identifier
that is not an exact key gives NotFound with no fallback; otherwise leaf-name
matching with zero/one/many giving NotFound/Found/Ambiguous. -/
def resolveTaskSpec (reg : TaskRegistry) (identifier : String) : TaskLookup :=
  let trimmed := trim identifier
  if trimmed = "" then .NotFound
  else if containsKey reg.tasks trimmed then .Found trimmed
  else if trimmed.data.contains '.' then .NotFound
  else
    match (reg.tasks.filter (fun e => leaf_name e.fst = trimmed)).map Prod.fst with
    | [] => .NotFound
    | [p] => .Found p
    | p :: q :: rest => .Ambiguous (p :: q :: rest)

/-- C1: `resolve_task` equals the four-step reference algorithm of the spec
(trim, exact match first — independent of leaf-name clashes —, dotted names
never fall back to leaf matching, and leaf matching by match count). -/
theorem resolve_task_eq_spec (reg : TaskRegistry) (identifier : String) :
    resolve_task reg identifier = resolveTaskSpec reg identifier := by
  unfold resolve_task resolveTaskSpec
  by_cases h0 : trim identifier = ""
  · simp [h0]
  · by_cases h1 : containsKey reg.tasks (trim identifier)
    · simp [h0, h1]
    · simp [h0, h1]

/-- Parameter-binding loop of `prepare_arguments_internal`
(`src/task/arguments.rs` lines 114-130): for each spec in order, take the
named value (removing it), else the next positional value, else the default,
else fail; returns the bound values with the unconsumed positional values and
the remaining named entries. -/
def bindParams (specs : List ParameterSpec) (positional : List String)
    (named : List (String × String)) :
    Except String (List String × List String × List (String × String)) :=
  match specs with
  | [] => .ok ([], positional, named)
  | spec :: rest =>
    match alistGet named spec.name with
    | some v =>
      (bindParams rest positional (alistErase named spec.name)).map
        (fun r => (v :: r.1, r.2))
    | none =>
      match positional with
      | v :: ptail =>
        (bindParams rest ptail named).map (fun r => (v :: r.1, r.2))
      | [] =>
        match spec.default with
        | some d =>
          (bindParams rest [] named).map (fun r => (d :: r.1, r.2))
        | none => .error ("Argument '" ++ spec.name ++ "' is missing.")

/-- Unfolding equation for `bindParams` at a cons cell. -/
theorem bindParams_cons (spec : ParameterSpec) (rest : List ParameterSpec)
    (positional : List String) (named : List (String × String)) :
    bindParams (spec :: rest) positional named =
      match alistGet named spec.name with
      | some v =>
        (bindParams rest positional (alistErase named spec.name)).map
          (fun r => (v :: r.1, r.2))
      | none =>
        match positional with
        | v :: ptail =>
          (bindParams rest ptail named).map (fun r => (v :: r.1, r.2))
        | [] =>
          match spec.default with
          | some d =>
            (bindParams rest [] named).map (fun r => (d :: r.1, r.2))
          | none => .error ("Argument '" ++ spec.name ++ "' is missing.") :=
  rfl

/-- Embedding of `prepare_arguments_internal` from `src/task/arguments.rs`
lines 89-149. -/
def prepare_arguments_internal (reg : TaskRegistry) (task_name : String)
    (positional : List String) (named : List (String × String)) :
    Except String (List String) :=
  match alistGet reg.tasks task_name with
  | none => .error ("Internal error: task '" ++ task_name ++ "' not found")
  | some task =>
    if task.params.isEmpty then
      if positional.isEmpty && named.isEmpty then .ok []
      else .error ("Task '" ++ task_name ++ "' does not accept arguments.")
    else
      match bindParams task.params positional named with
      | .error e => .error e
      | .ok (values, prem, nrem) =>
        match prem with
        | extra :: _ =>
          .error ("Unexpected positional argument '" ++ extra ++ "' provided.")
        | [] =>
          if nrem.isEmpty then .ok values
          else .error ("Unknown argument(s): "
            ++ String.intercalate ", " (nrem.map Prod.fst))

/-- Embedding of `prepare_arguments_from_parts` from `src/task/arguments.rs`
(a logging wrapper around `prepare_arguments_internal`). -/
def prepare_arguments_from_parts (reg : TaskRegistry) (task_name : String)
    (positional : List String) (named : List (String × String)) :
    Except String (List String) :=
  prepare_arguments_internal reg task_name positional named

/-- Reference binding loop, written from the spec: walk the declared specs in
stored order with a cursor over the positional values; take the named value by
exact key (removing it), else the next unconsumed positional value, else the
default, else fail. -/
def specBindLoop (specs : List ParameterSpec) (positional : List String)
    (used : Nat) (named : List (String × String)) :
    Except String (List String × Nat × List (String × String)) :=
  match specs with
  | [] => .ok ([], used, named)
  | spec :: rest =>
    match alistGet named spec.name with
    | some v =>
      (specBindLoop rest positional used (alistErase named spec.name)).map
        (fun r => (v :: r.1, r.2))
    | none =>
      match positional[used]? with
      | some v =>
        (specBindLoop rest positional (used + 1) named).map
          (fun r => (v :: r.1, r.2))
      | none =>
        match spec.default with
        | some d =>
          (specBindLoop rest positional used named).map
            (fun r => (d :: r.1, r.2))
        | none => .error ("Argument '" ++ spec.name ++ "' is missing.")

/-- Unfolding equation for `specBindLoop` at a cons cell. -/
theorem specBindLoop_cons (spec : ParameterSpec) (rest : List ParameterSpec)
    (positional : List String) (used : Nat)
    (named : List (String × String)) :
    specBindLoop (spec :: rest) positional used named =
      match alistGet named spec.name with
      | some v =>
        (specBindLoop rest positional used (alistErase named spec.name)).map
          (fun r => (v :: r.1, r.2))
      | none =>
        match positional[used]? with
        | some v =>
          (specBindLoop rest positional (used + 1) named).map
            (fun r => (v :: r.1, r.2))
        | none =>
          match spec.default with
          | some d =>
            (specBindLoop rest positional used named).map
              (fun r => (d :: r.1, r.2))
          | none => .error ("Argument '" ++ spec.name ++ "' is missing.") :=
  rfl

/-- Reference binding algorithm, written from the spec: empty declared params
accept only empty inputs; otherwise bind every spec, then reject a leftover
positional value (reporting the first) and leftover named keys (comma-joined). -/
def prepareArgumentsSpec (task : Task) (task_name : String)
    (positional : List String) (named : List (String × String)) :
    Except String (List String) :=
  if task.params.isEmpty then
    if positional.isEmpty && named.isEmpty then .ok []
    else .error ("Task '" ++ task_name ++ "' does not accept arguments.")
  else
    match specBindLoop task.params positional 0 named with
    | .error e => .error e
    | .ok (values, used, nrem) =>
      match positional.drop used with
      | extra :: _ =>
        .error ("Unexpected positional argument '" ++ extra ++ "' provided.")
      | [] =>
        if nrem.isEmpty then .ok values
        else .error ("Unknown argument(s): "
          ++ String.intercalate ", " (nrem.map Prod.fst))

/-- The iterator-style loop of the source agrees with the cursor-style loop of
the spec, at every cursor position. -/
theorem bindParams_eq_specBindLoop (specs : List ParameterSpec)
    (positional : List String) (used : Nat) (named : List (String × String)) :
    bindParams specs (positional.drop used) named =
      (specBindLoop specs positional used named).map
        (fun r => (r.1, positional.drop r.2.1, r.2.2)) := by
  induction specs generalizing used named with
  | nil => rfl
  | cons spec rest ih =>
    rw [bindParams_cons, specBindLoop_cons]
    cases halist : alistGet named spec.name with
    | some v =>
      dsimp only
      rw [ih used (alistErase named spec.name)]
      cases specBindLoop rest positional used (alistErase named spec.name) with
      | ok r => rfl
      | error e => rfl
    | none =>
      cases hget : positional[used]? with
      | some v =>
        have hlt : used < positional.length := by
          by_contra hge
          rw [List.getElem?_eq_none (Nat.le_of_not_lt hge)] at hget
          exact Option.noConfusion hget
        have hdrop : positional.drop used = v :: positional.drop (used + 1) := by
          rw [List.drop_eq_getElem_cons hlt]
          rw [List.getElem?_eq_getElem hlt] at hget
          rw [Option.some_inj] at hget
          rw [hget]
        rw [hdrop]
        dsimp only
        rw [ih (used + 1) named]
        cases specBindLoop rest positional (used + 1) named with
        | ok r => rfl
        | error e => rfl
      | none =>
        have hge : positional.length ≤ used := by
          by_contra hlt
          rw [List.getElem?_eq_getElem (Nat.lt_of_not_le hlt)] at hget
          exact Option.noConfusion hget
        have hdrop : positional.drop used = [] := List.drop_eq_nil_of_le hge
        rw [hdrop]
        dsimp only
        cases hdef : spec.default with
        | some d =>
          dsimp only
          have ih' := ih used named
          rw [hdrop] at ih'
          rw [ih']
          cases specBindLoop rest positional used named with
          | ok r => rfl
          | error e => rfl
        | none => rfl

/-- C2: `prepare_arguments_from_parts` on a registered task equals the
reference binding algorithm of the spec: empty params accept only empty
inputs; each spec in stored order binds the named value (removed), else the
next unconsumed positional value, else the default, else fails naming the
parameter; afterwards the first leftover positional value or the comma-joined
leftover named keys fail the call. -/
theorem prepare_arguments_from_parts_eq_spec (reg : TaskRegistry)
    (task_name : String) (task : Task) (positional : List String)
    (named : List (String × String))
    (h : alistGet reg.tasks task_name = some task) :
    prepare_arguments_from_parts reg task_name positional named =
      prepareArgumentsSpec task task_name positional named := by
  unfold prepare_arguments_from_parts prepare_arguments_internal
    prepareArgumentsSpec
  rw [h]
  by_cases hp : task.params.isEmpty
  · simp [hp]
  · simp only [hp, if_neg]
    have hb := bindParams_eq_specBindLoop task.params positional 0 named
    rw [List.drop_zero] at hb
    rw [hb]
    cases specBindLoop task.params positional 0 named with
    | error e => rfl
    | ok r => rfl

/-- Witness for `prepare_arguments_from_parts_eq_spec` at the spec's worked
example: sorted params `[arch, profile]` with defaults, named value for
`profile` only. -/
theorem prepare_arguments_from_parts_eq_spec_witness :
    prepare_arguments_from_parts
        { tasks := [("build",
            { params := [⟨"arch", some "x86_64"⟩, ⟨"profile", some "debug"⟩] })] }
        "build" [] [("profile", "release")]
      = prepareArgumentsSpec
        { params := [⟨"arch", some "x86_64"⟩, ⟨"profile", some "debug"⟩] }
        "build" [] [("profile", "release")] :=
  prepare_arguments_from_parts_eq_spec
    { tasks := [("build",
        { params := [⟨"arch", some "x86_64"⟩, ⟨"profile", some "debug"⟩] })] }
    "build"
    { params := [⟨"arch", some "x86_64"⟩, ⟨"profile", some "debug"⟩] }
    [] [("profile", "release")] rfl

/-- `arg.starts_with("--")`: the first two characters are dashes. -/
def startsDashes (s : String) : Bool :=
  s.data.take 2 == ['-', '-']

/-- `arg.strip_prefix("--")`: the remainder when the token starts with two
dashes. -/
def stripDashes (s : String) : Option String :=
  if s.data.take 2 = ['-', '-'] then some ⟨s.data.drop 2⟩ else none

/-- Split a character list at the first occurrence of `c`
(`str::split_once`). -/
def splitCharList (c : Char) : List Char → Option (List Char × List Char)
  | [] => none
  | x :: xs =>
    if x = c then some ([], xs)
    else (splitCharList c xs).map (fun r => (x :: r.1, r.2))

/-- `s.split_once('=')`. -/
def splitOnceEq (s : String) : Option (String × String) :=
  (splitCharList '=' s.data).map (fun r => (⟨r.1⟩, ⟨r.2⟩))

/-- The token-scanning loop of `parse_cli_arguments` from
`src/task/arguments.rs` lines 20-53, carrying the `positional` and `named`
accumulators. -/
def parseCliLoop : List String → List String → List (String × String) →
    Except String (List String × List (String × String))
  | [], positional, named => .ok (positional, named)
  | arg :: rest, positional, named =>
    match stripDashes arg with
    | some r =>
      if r = "" then .error "Argument name required after '--'."
      else
        match splitOnceEq r with
        | some (k, v) =>
          if k = "" then .error "Argument name cannot be empty."
          else parseCliLoop rest positional (alistInsert named k v)
        | none =>
          match rest with
          | next :: rest2 =>
            if !(startsDashes next) && !(next.data.contains '=') then
              parseCliLoop rest2 positional (alistInsert named r next)
            else .error ("Option '--" ++ r ++ "' is missing a value.")
          | [] => .error ("Option '--" ++ r ++ "' is missing a value.")
    | none =>
      match splitOnceEq arg with
      | some (k, v) =>
        if k = "" then .error "Argument name cannot be empty."
        else parseCliLoop rest positional (alistInsert named k v)
      | none => parseCliLoop rest (positional ++ [arg]) named

/-- Embedding of `parse_cli_arguments` from `src/task/arguments.rs`
lines 13-60. -/
def parse_cli_arguments (raw_args : List String) :
    Except String (List String × List (String × String)) :=
  parseCliLoop raw_args [] []

/-- Unfolding equation for `parseCliLoop` at a cons cell. -/
theorem parseCliLoop_cons (arg : String) (rest positional : List String)
    (named : List (String × String)) :
    parseCliLoop (arg :: rest) positional named =
      match stripDashes arg with
      | some r =>
        if r = "" then .error "Argument name required after '--'."
        else
          match splitOnceEq r with
          | some (k, v) =>
            if k = "" then .error "Argument name cannot be empty."
            else parseCliLoop rest positional (alistInsert named k v)
          | none =>
            match rest with
            | next :: rest2 =>
              if !(startsDashes next) && !(next.data.contains '=') then
                parseCliLoop rest2 positional (alistInsert named r next)
              else .error ("Option '--" ++ r ++ "' is missing a value.")
            | [] => .error ("Option '--" ++ r ++ "' is missing a value.")
      | none =>
        match splitOnceEq arg with
        | some (k, v) =>
          if k = "" then .error "Argument name cannot be empty."
          else parseCliLoop rest positional (alistInsert named k v)
        | none => parseCliLoop rest (positional ++ [arg]) named :=
  parseCliLoop.eq_2 positional named arg rest

/-- Appending after the two-dash marker concatenates character data. -/
theorem data_dashdash (name : String) :
    ("--" ++ name).data = '-' :: '-' :: name.data := by
  rw [String.data_append]
  rfl

/-- `strip_prefix("--")` on a token built as `"--" ++ name` yields `name`. -/
theorem stripDashes_dashdash (name : String) :
    stripDashes ("--" ++ name) = some name := by
  unfold stripDashes
  rw [data_dashdash]
  rw [if_pos (show List.take 2 ('-' :: '-' :: name.data) = ['-', '-'] from rfl)]
  rfl

/-- `splitCharList` finds nothing when the character does not occur. -/
theorem splitCharList_none (c : Char) (cs : List Char)
    (h : cs.contains c = false) : splitCharList c cs = none := by
  induction cs with
  | nil => rfl
  | cons x xs ih =>
    rw [List.contains_cons] at h
    rw [Bool.or_eq_false_iff] at h
    have hx : ¬ x = c := by
      intro hxc
      rw [hxc] at h
      simp at h
    unfold splitCharList
    rw [if_neg hx]
    rw [ih h.2]
    rfl

/-- `split_once('=')` finds nothing when the string has no equals sign. -/
theorem splitOnceEq_none (s : String) (h : s.data.contains '=' = false) :
    splitOnceEq s = none := by
  unfold splitOnceEq
  rw [splitCharList_none '=' s.data h]
  rfl

/-- Counterexample to C6 as stated: on `["--opt", ""]` the scanner consumes
the empty next token as the option's value and succeeds, instead of failing
with the missing-value error that the claim requires for an empty next
token. -/
theorem parse_cli_empty_next_token_counterexample :
    parse_cli_arguments ["--opt", ""] = .ok ([], [("opt", "")]) ∧
      parse_cli_arguments ["--opt", ""]
        ≠ .error "Option '--opt' is missing a value." := by
  constructor
  · rfl
  · intro h
    have h2 : (Except.ok ([], [("opt", "")]) :
        Except String (List String × List (String × String)))
          = .error "Option '--opt' is missing a value." := h
    exact Except.noConfusion h2

/-- C6 (amended): for a token `"--" ++ name` with non-empty `name` containing
no `=`, the next token is consumed as the value exactly when it exists, does
not start with `--`, and contains no `=` — an empty next token is consumed
like any other value; otherwise the scan fails with the missing-value error,
and a bare `--` fails asking for an argument name. -/
theorem parse_cli_double_dash_rule (name : String) (h1 : ¬ name = "")
    (h2 : name.data.contains '=' = false) :
    (∀ positional named,
        parseCliLoop ["--" ++ name] positional named
          = .error ("Option '--" ++ name ++ "' is missing a value."))
    ∧ (∀ positional named next rest2, startsDashes next = false →
        next.data.contains '=' = false →
        parseCliLoop (("--" ++ name) :: next :: rest2) positional named
          = parseCliLoop rest2 positional (alistInsert named name next))
    ∧ (∀ positional named next rest2,
        startsDashes next = true ∨ next.data.contains '=' = true →
        parseCliLoop (("--" ++ name) :: next :: rest2) positional named
          = .error ("Option '--" ++ name ++ "' is missing a value."))
    ∧ (∀ positional named rest,
        parseCliLoop ("--" :: rest) positional named
          = .error "Argument name required after '--'.") := by
  refine ⟨?_, ?_, ?_, ?_⟩
  · intro positional named
    rw [parseCliLoop_cons, stripDashes_dashdash]
    dsimp only
    rw [if_neg h1, splitOnceEq_none name h2]
  · intro positional named next rest2 hsd hc
    rw [parseCliLoop_cons, stripDashes_dashdash]
    dsimp only
    rw [if_neg h1, splitOnceEq_none name h2]
    dsimp only
    rw [hsd, hc]
    rfl
  · intro positional named next rest2 hbad
    rw [parseCliLoop_cons, stripDashes_dashdash]
    dsimp only
    rw [if_neg h1, splitOnceEq_none name h2]
    dsimp only
    rcases hbad with hsd | hc
    · rw [hsd]
      rfl
    · rw [hc]
      cases startsDashes next <;> rfl
  · intro positional named rest
    rw [parseCliLoop_cons]
    rfl

/-- Witness for `parse_cli_double_dash_rule` at the concrete option
`--opt` followed by the value `v`. -/
theorem parse_cli_double_dash_rule_witness :
    parseCliLoop ["--opt", "v"] [] []
      = parseCliLoop [] [] (alistInsert [] "opt" "v") :=
  (parse_cli_double_dash_rule "opt" (by decide) (by decide)).2.1
    [] [] "v" [] (by decide) (by decide)

/-- `TaskBuilder` from `src/task/builder/task_builder.rs`. -/
structure TaskBuilder where
  full_path : String
  task : Task := {}
deriving Repr, DecidableEq

/-- `GroupBuilder` from `src/task/builder/group_builder.rs`. -/
structure GroupBuilder where
  full_path : String
  group : Group := {}
deriving Repr, DecidableEq

/-- `ContextFrame` from `src/task/stack/build_stack.rs`. -/
inductive ContextFrame where
  | Root
  | Group (b : GroupBuilder)
  | Task (b : TaskBuilder)
deriving Repr, DecidableEq

/-- `BuildStack` from `src/task/stack/build_stack.rs`; the head of
`context_stack` is the top of the stack (the `Vec`'s last element). -/
structure BuildStack where
  context_stack : List ContextFrame := [ContextFrame.Root]
  script_root : Option String := none
deriving Repr, DecidableEq

/-- An open frame is a task frame with the given path. -/
def frameIsTaskAt (full_path : String) (f : ContextFrame) : Bool :=
  match f with
  | .Task b => b.full_path == full_path
  | _ => false

/-- An open frame is a group frame with the given path. -/
def frameIsGroupAt (full_path : String) (f : ContextFrame) : Bool :=
  match f with
  | .Group b => b.full_path == full_path
  | _ => false

/-- Embedding of `BuildStack::build_child_path`. -/
def build_child_path (st : BuildStack) (name : String) : Except String String :=
  match st.context_stack with
  | ContextFrame.Root :: _ => .ok name
  | ContextFrame.Group b :: _ => .ok (b.full_path ++ "." ++ name)
  | ContextFrame.Task _ :: _ => .error "Nested task() calls are not supported."
  | [] => .error "context mismatch: context stack is empty."

/-- Embedding of `BuildStack::ensure_task_name_available`. -/
def ensure_task_name_available (st : BuildStack) (reg : TaskRegistry)
    (full_path : String) : Except String Unit :=
  if containsKey reg.tasks full_path
      || st.context_stack.any (frameIsTaskAt full_path) then
    .error ("Task '" ++ full_path ++ "' is already defined.")
  else if containsKey reg.groups full_path
      || st.context_stack.any (frameIsGroupAt full_path) then
    .error ("Task '" ++ full_path ++ "' is already defined as a group.")
  else .ok ()

/-- Embedding of `BuildStack::begin_task` from
`src/task/stack/build_stack.rs` lines 46-63.  The Rust function takes the
registry by shared reference, so the registry is unchanged by construction
(the embedding does not return one). -/
def begin_task (st : BuildStack) (reg : TaskRegistry) (name : String) :
    Except String BuildStack :=
  let name := trim name
  if name = "" then .error "Task name cannot be empty."
  else
    match build_child_path st name with
    | .error e => .error e
    | .ok full_path =>
      match ensure_task_name_available st reg full_path with
      | .error e => .error e
      | .ok _ =>
        .ok { st with context_stack :=
          ContextFrame.Task { full_path := full_path } :: st.context_stack }

/-- Collision check and push, shared by the clauses of the reference
`begin_task` written from the spec. -/
def beginTaskSpecCheck (st : BuildStack) (reg : TaskRegistry)
    (full_path : String) : Except String BuildStack :=
  if containsKey reg.tasks full_path
      || st.context_stack.any (frameIsTaskAt full_path) then
    .error ("Task '" ++ full_path ++ "' is already defined.")
  else if containsKey reg.groups full_path
      || st.context_stack.any (frameIsGroupAt full_path) then
    .error ("Task '" ++ full_path ++ "' is already defined as a group.")
  else
    .ok { st with context_stack :=
      ContextFrame.Task { full_path := full_path } :: st.context_stack }

/-- Reference `begin_task` written from the spec: empty trimmed name fails;
a task frame on top fails as nested; otherwise the full path joins the name
to the enclosing root or group frame, collisions with finalized or open
tasks/groups fail, and on success a task frame is pushed. -/
def beginTaskSpec (st : BuildStack) (reg : TaskRegistry) (name : String) :
    Except String BuildStack :=
  let n := trim name
  if n = "" then .error "Task name cannot be empty."
  else
    match st.context_stack with
    | ContextFrame.Task _ :: _ =>
      .error "Nested task() calls are not supported."
    | ContextFrame.Root :: _ => beginTaskSpecCheck st reg n
    | ContextFrame.Group b :: _ =>
      beginTaskSpecCheck st reg (b.full_path ++ "." ++ n)
    | [] => .error "context mismatch: context stack is empty."

/-- Sequencing the availability check before a fixed continuation is the
same as inlining the two collision tests of the check. -/
theorem check_bridge (st : BuildStack) (reg : TaskRegistry) (p : String)
    (st' : BuildStack) :
    (match ensure_task_name_available st reg p with
     | .error e => (.error e : Except String BuildStack)
     | .ok _ => .ok st')
    = (if containsKey reg.tasks p
          || st.context_stack.any (frameIsTaskAt p) then
        .error ("Task '" ++ p ++ "' is already defined.")
      else if containsKey reg.groups p
          || st.context_stack.any (frameIsGroupAt p) then
        .error ("Task '" ++ p ++ "' is already defined as a group.")
      else .ok st') := by
  unfold ensure_task_name_available
  by_cases h1 : (containsKey reg.tasks p
      || st.context_stack.any (frameIsTaskAt p)) = true
  · rw [if_pos h1, if_pos h1]
  · rw [if_neg h1, if_neg h1]
    by_cases h2 : (containsKey reg.groups p
        || st.context_stack.any (frameIsGroupAt p)) = true
    · rw [if_pos h2, if_pos h2]
    · rw [if_neg h2, if_neg h2]

/-- C7: on a non-empty frame stack, `begin_task` behaves exactly as the spec
describes: trimmed-empty name fails, a task frame on top fails as nested,
then the joined full path is checked against finalized and open tasks (then
groups) before a task frame is pushed; the registry is never modified (the
embedding takes it read-only). -/
theorem begin_task_eq_spec (st : BuildStack) (reg : TaskRegistry)
    (name : String) (h : st.context_stack ≠ []) :
    begin_task st reg name = beginTaskSpec st reg name := by
  obtain ⟨stack, sr⟩ := st
  by_cases h0 : trim name = ""
  · simp [begin_task, beginTaskSpec, h0]
  · cases stack with
    | nil => exact absurd rfl h
    | cons f rest =>
      unfold begin_task beginTaskSpec build_child_path
      dsimp only
      rw [if_neg h0, if_neg h0]
      cases f with
      | Root =>
        dsimp only
        rw [check_bridge]
        unfold beginTaskSpecCheck
        rfl
      | Group b =>
        dsimp only
        rw [check_bridge]
        unfold beginTaskSpecCheck
        rfl
      | Task b => rfl

/-- Witness for `begin_task_eq_spec` on the initial root-only stack. -/
theorem begin_task_eq_spec_witness :
    begin_task { context_stack := [ContextFrame.Root] } {} "demo"
      = beginTaskSpec { context_stack := [ContextFrame.Root] } {} "demo" :=
  begin_task_eq_spec { context_stack := [ContextFrame.Root] } {} "demo"
    (by decide)

/-- Stable insertion of a key-value pair into a list sorted by key
(an element lands after existing entries with an equal or smaller key),
modelling the stable `sort_by(|a, b| a.0.cmp(&b.0))`. -/
def insertSortedParam (x : String × Option String) :
    List (String × Option String) → List (String × Option String)
  | [] => [x]
  | y :: ys => if x.fst < y.fst then x :: y :: ys else y :: insertSortedParam x ys

/-- Stable sort of the raw pairs by key name. -/
def sortParams (l : List (String × Option String)) :
    List (String × Option String) :=
  l.foldl (fun acc x => insertSortedParam x acc) []

/-- Embedding of `BuildStack::set_args` from `src/task/stack/build_stack.rs`
lines 137-170.  The rhai map values are modelled as `Option String`: `none`
is the unit value `()` (for which the source stores no default) and `some s`
a (stringified) value, for which the source stores `Some(s)` as the default —
including the empty string. -/
def set_args (st : BuildStack) (params : List (String × Option String)) :
    Except String BuildStack :=
  match st.context_stack with
  | ContextFrame.Task b :: rest =>
    let specs := (sortParams params).map
      (fun e => ParameterSpec.mk e.fst e.snd)
    .ok { st with context_stack :=
      ContextFrame.Task { b with task := { b.task with params := specs } }
        :: rest }
  | ContextFrame.Group _ :: _ => .error "args() can only be used inside task()."
  | ContextFrame.Root :: _ => .error "args() can only be used inside task()."
  | [] => .error "context mismatch: context stack is empty."

/-- The default the claim (as stated) assigns to a pair: the value only when
it is present and non-empty, absent otherwise. -/
def claimDefault (v : Option String) : Option String :=
  match v with
  | some s => if s = "" then none else some s
  | none => none

/-- `set_args` exactly as claim C8 states it, with the claim's
present-and-non-empty rule for defaults. -/
def setArgsClaim (st : BuildStack) (params : List (String × Option String)) :
    Except String BuildStack :=
  match st.context_stack with
  | ContextFrame.Task b :: rest =>
    let specs := (sortParams params).map
      (fun e => ParameterSpec.mk e.fst (claimDefault e.snd))
    .ok { st with context_stack :=
      ContextFrame.Task { b with task := { b.task with params := specs } }
        :: rest }
  | ContextFrame.Group _ :: _ => .error "args() can only be used inside task()."
  | ContextFrame.Root :: _ => .error "args() can only be used inside task()."
  | [] => .error "context mismatch: context stack is empty."

/-- Counterexample to C8 as stated: for the pair `("p", "")` — a present but
empty value — the source stores the default `some ""` on the task's params,
while the claim requires the default to be absent. -/
theorem set_args_empty_default_counterexample :
    set_args { context_stack := [ContextFrame.Task { full_path := "t" }] }
        [("p", some "")]
      = .ok { context_stack := [ContextFrame.Task { full_path := "t", task := { params := [⟨"p", some ""⟩] } }] }
    ∧ setArgsClaim { context_stack := [ContextFrame.Task { full_path := "t" }] }
        [("p", some "")]
      = .ok { context_stack := [ContextFrame.Task { full_path := "t", task := { params := [⟨"p", none⟩] } }] }
    ∧ (ParameterSpec.mk "p" (some "") : ParameterSpec) ≠ ParameterSpec.mk "p" none :=
  ⟨rfl, rfl, by decide⟩

/-- Reference `set_args` written from the spec as amended: on a task frame
the given pairs, sorted lexicographically by key name, replace the task's
params, each default being the pair's value whenever one is present
(the empty string included) and absent only for the unit value; on a group
or root frame the call fails. -/
def setArgsSpec (st : BuildStack) (params : List (String × Option String)) :
    Except String BuildStack :=
  match st.context_stack with
  | ContextFrame.Task b :: rest =>
    let specs := (sortParams params).map (fun e => ParameterSpec.mk e.fst e.snd)
    let task2 := { b.task with params := specs }
    .ok { st with context_stack := ContextFrame.Task { b with task := task2 } :: rest }
  | ContextFrame.Group _ :: _ => .error "args() can only be used inside task()."
  | ContextFrame.Root :: _ => .error "args() can only be used inside task()."
  | [] => .error "context mismatch: context stack is empty."

/-- C8 (amended): on a non-empty frame stack, `set_args` stores on a task
frame exactly the given pairs sorted lexicographically by key, replacing the
previous params, with each default equal to the pair's value whenever one is
present — including an empty string — and absent only for the unit value;
on a group or root frame it fails with the args-guard error. -/
theorem set_args_eq_spec (st : BuildStack)
    (params : List (String × Option String)) (h : st.context_stack ≠ []) :
    set_args st params = setArgsSpec st params := by
  obtain ⟨stack, sr⟩ := st
  cases stack with
  | nil => exact absurd rfl h
  | cons f rest =>
    cases f with
    | Root => rfl
    | Group b => rfl
    | Task b => rfl

/-- Witness for `set_args_eq_spec` on a single-task stack with one defaulted
and one default-free parameter. -/
theorem set_args_eq_spec_witness :
    set_args { context_stack := [ContextFrame.Task { full_path := "build" }] }
        [("profile", some "debug"), ("arch", none)]
      = setArgsSpec
          { context_stack := [ContextFrame.Task { full_path := "build" }] }
          [("profile", some "debug"), ("arch", none)] :=
  set_args_eq_spec
    { context_stack := [ContextFrame.Task { full_path := "build" }] }
    [("profile", some "debug"), ("arch", none)] (by decide)

/-- Embedding of `TaskRegistry::set_default_task` from
`src/task/registry/task_registry.rs` lines 70-86, in mutation style: the
returned registry is the receiver's state after the call. -/
def set_default_task (reg : TaskRegistry) (name : String) :
    Except String Unit × TaskRegistry :=
  let trimmed := trim name
  if trimmed = "" then
    (.error "default_task() requires a task name.", reg)
  else
    match reg.default_task with
    | some _ =>
      (.error "default_task() can only be defined once per rhaskfile.", reg)
    | none => (.ok (), { reg with default_task := some trimmed })

/-- Embedding of `TaskRegistry::default_task`. -/
def default_task (reg : TaskRegistry) : Option String :=
  reg.default_task

/-- Reference `set_default_task` written from the spec: fail on a
trimmed-empty name, fail when a default was already set, otherwise store the
trimmed name; a failing call returns the registry unchanged. -/
def setDefaultTaskSpec (reg : TaskRegistry) (name : String) :
    Except String Unit × TaskRegistry :=
  if trim name = "" then
    (.error "default_task() requires a task name.", reg)
  else if (default_task reg).isSome then
    (.error "default_task() can only be defined once per rhaskfile.", reg)
  else
    (.ok (), { reg with default_task := some (trim name) })

/-- C9: `set_default_task` fails on a trimmed-empty name and on a second
call, stores the trimmed name otherwise, and leaves the stored default
unchanged on every failing call; `default_task` returns the stored name, or
none before any successful call. -/
theorem set_default_task_eq_spec (reg : TaskRegistry) (name : String) :
    set_default_task reg name = setDefaultTaskSpec reg name
      ∧ default_task reg = reg.default_task := by
  refine ⟨?_, rfl⟩
  unfold set_default_task setDefaultTaskSpec default_task
  by_cases h0 : trim name = ""
  · simp [h0]
  · rw [if_neg h0, if_neg h0]
    cases hd : reg.default_task with
    | some d => rfl
    | none => rfl

/-- `RegistryEntry::Task/Group` attachment to the new top frame: embedding of
`BuildStack::attach_entry_to_parent`. -/
def attach_entry_to_parent (st : BuildStack) (reg : TaskRegistry)
    (entry : RegistryEntry) : Except String (BuildStack × TaskRegistry) :=
  match st.context_stack with
  | ContextFrame.Root :: _ =>
    .ok (st, { reg with root_entries := reg.root_entries ++ [entry] })
  | ContextFrame.Group b :: rest =>
    .ok ({ st with context_stack :=
      ContextFrame.Group { b with group :=
        { b.group with entries := b.group.entries ++ [entry] } } :: rest },
      reg)
  | ContextFrame.Task _ :: _ =>
    .error "Nested task() calls are not supported."
  | [] => .error "context mismatch: context stack is empty."

/-- Embedding of `BuildStack::end_task` from `src/task/stack/build_stack.rs`
lines 65-83, in mutation style: `pop()` removes the top frame before the
frame kind is examined, so the returned stack lacks it even on the mismatch
errors. -/
def end_task (st : BuildStack) (reg : TaskRegistry) :
    Except String Unit × BuildStack × TaskRegistry :=
  match st.context_stack with
  | ContextFrame.Task b :: rest =>
    let st1 : BuildStack := { st with context_stack := rest }
    let reg1 : TaskRegistry :=
      { reg with tasks := alistInsert reg.tasks b.full_path b.task }
    match attach_entry_to_parent st1 reg1 (RegistryEntry.Task b.full_path) with
    | .ok (st2, reg2) => (.ok (), st2, reg2)
    | .error e => (.error e, st1, reg1)
  | ContextFrame.Group _ :: rest =>
    (.error "context mismatch: end_task() called while inside group().",
      { st with context_stack := rest }, reg)
  | ContextFrame.Root :: rest =>
    (.error "context mismatch: end_task() called before task() was started.",
      { st with context_stack := rest }, reg)
  | [] => (.error "context mismatch: context stack is empty.", st, reg)

/-- Embedding of `BuildStack::end_group` from `src/task/stack/build_stack.rs`
lines 104-122, in the same mutation style as `end_task`. -/
def end_group (st : BuildStack) (reg : TaskRegistry) :
    Except String Unit × BuildStack × TaskRegistry :=
  match st.context_stack with
  | ContextFrame.Group b :: rest =>
    let st1 : BuildStack := { st with context_stack := rest }
    let reg1 : TaskRegistry :=
      { reg with groups := alistInsert reg.groups b.full_path b.group }
    match attach_entry_to_parent st1 reg1 (RegistryEntry.Group b.full_path) with
    | .ok (st2, reg2) => (.ok (), st2, reg2)
    | .error e => (.error e, st1, reg1)
  | ContextFrame.Task _ :: rest =>
    (.error "context mismatch: task() scope was not closed before ending group().",
      { st with context_stack := rest }, reg)
  | ContextFrame.Root :: rest =>
    (.error "context mismatch: end_group() called before group() was started.",
      { st with context_stack := rest }, reg)
  | [] => (.error "context mismatch: context stack is empty.", st, reg)

/-- C10: a mismatched `end_task`/`end_group` pops the top frame even though
it returns a context-mismatch error — including the bottom root frame — so
the failed call is not atomic: after `end_task` on a root-only stack the
stack is empty, and a further end call reports the empty-stack mismatch. -/
theorem end_calls_pop_even_on_error (reg : TaskRegistry) (sr : Option String)
    (b : GroupBuilder) (tb : TaskBuilder) (rest : List ContextFrame) :
    (end_task ⟨ContextFrame.Group b :: rest, sr⟩ reg
      = (.error "context mismatch: end_task() called while inside group().",
          ⟨rest, sr⟩, reg))
    ∧ (end_task ⟨ContextFrame.Root :: rest, sr⟩ reg
      = (.error "context mismatch: end_task() called before task() was started.",
          ⟨rest, sr⟩, reg))
    ∧ (end_group ⟨ContextFrame.Task tb :: rest, sr⟩ reg
      = (.error "context mismatch: task() scope was not closed before ending group().",
          ⟨rest, sr⟩, reg))
    ∧ (end_group ⟨ContextFrame.Root :: rest, sr⟩ reg
      = (.error "context mismatch: end_group() called before group() was started.",
          ⟨rest, sr⟩, reg))
    ∧ ((end_task ⟨[ContextFrame.Root], sr⟩ reg).2.1 = ⟨[], sr⟩)
    ∧ ((end_task ⟨[], sr⟩ reg).1
      = .error "context mismatch: context stack is empty.")
    ∧ ((end_group ⟨[], sr⟩ reg).1
      = .error "context mismatch: context stack is empty.") :=
  ⟨rfl, rfl, rfl, rfl, rfl, rfl, rfl⟩

/-- `ActionContext` from `src/engine/core.rs`. -/
structure ActionContext where
  working_dir : Option String
deriving Repr, DecidableEq

/-- `ExecutionState` from `src/engine/core.rs`; the head of `contexts` is the
most recently pushed context (the `Vec`'s last element). -/
structure ExecutionState where
  contexts : List ActionContext := []
  base_dir : String
deriving Repr, DecidableEq

/-- Engine state for the scope manager: the process working directory (the
OS-global state, modelled as a pure field) together with the
`ExecutionState`. -/
structure EngineSt where
  cwd : String
  exec : ExecutionState
deriving Repr, DecidableEq

/-- `ExecutionState::is_active`. -/
def is_active (s : ExecutionState) : Bool :=
  !s.contexts.isEmpty

/-- Embedding of `ExecutionState::enter_directory`: the target is the task's
working directory or `base_dir`; the previous directory is read, and the
process directory changes only when it differs from the target.  The OS
calls are modelled as infallible, so the recorded previous directory is
always returned. -/
def enter_directory (wd : Option String) (s : EngineSt) : String × EngineSt :=
  let target := wd.getD s.exec.base_dir
  let previous := s.cwd
  if previous ≠ target then (previous, { s with cwd := target })
  else (previous, s)

/-- Embedding of `ActionScope::start` from `src/engine/core.rs` lines
234-246: enter the directory, push an `ActionContext` regardless of whether
a change occurred, and record the prior directory in the scope handle. -/
def scopeStart (wd : Option String) (s : EngineSt) : Option String × EngineSt :=
  let (previous, s1) := enter_directory wd s
  (some previous,
    { s1 with exec := { s1.exec with contexts := ⟨wd⟩ :: s1.exec.contexts } })

/-- Embedding of `impl Drop for ActionScope` from `src/engine/core.rs` lines
266-276: pop the context and, when a prior directory was recorded, restore
the process working directory to it. -/
def scopeDrop (prev : Option String) (s : EngineSt) : EngineSt :=
  let s1 := { s with exec := { s.exec with contexts := s.exec.contexts.tail } }
  match prev with
  | some p => { s1 with cwd := p }
  | none => s1

/-- A scope around an action body, as `run_task` uses it: start the scope,
run the body, and drop the scope handle on every exit path — Rust runs the
`Drop` whether the wrapped body returned `Ok` or an error, so the drop is
applied to the body's final state unconditionally. -/
def runScope {α : Type} (wd : Option String) (body : EngineSt → α × EngineSt)
    (s : EngineSt) : α × EngineSt :=
  ((body (scopeStart wd s).2).1,
    scopeDrop (scopeStart wd s).1 (body (scopeStart wd s).2).2)

/-- Embedding of `ActionScope::start_nested` from `src/engine/core.rs` lines
248-263: fail with the actions-only guard unless a scope is already active,
else behave as `start`. -/
def scopeStartNested (label : String) (wd : Option String) (s : EngineSt) :
    Except String (Option String × EngineSt) :=
  if !(is_active s.exec) then
    .error (label ++ " can only be used inside actions().")
  else .ok (scopeStart wd s)

/-- A nested scope around a triggered action body, with the drop applied on
every exit path of the body.  Modelled from the spec for the
working-directory argument: the `trigger_impl` copies in
`src/engine/runtime.rs` and `src/engine/bindings.rs` call
`ActionScope::start_nested` without a working-directory argument (they
predate its signature in `src/engine/core.rs`), while spec §4.5 and §2 have
trigger open the nested scope with the triggered task's working directory. -/
def runNestedScope {α : Type} (label : String) (wd : Option String)
    (body : EngineSt → Except String α × EngineSt) (s : EngineSt) :
    Except String α × EngineSt :=
  match scopeStartNested label wd s with
  | .error e => (.error e, s)
  | .ok p => ((body p.2).1, scopeDrop p.1 (body p.2).2)

/-- Evaluated form of `ActionScope::start`: the recorded prior directory is
the caller's current directory, the new current directory is the target, and
a context carrying the requested working directory is pushed. -/
theorem scopeStart_eq (wd : Option String) (s : EngineSt) :
    scopeStart wd s = (some s.cwd,
      ⟨wd.getD s.exec.base_dir,
        ⟨⟨wd⟩ :: s.exec.contexts, s.exec.base_dir⟩⟩) := by
  unfold scopeStart enter_directory
  by_cases hne : s.cwd ≠ wd.getD s.exec.base_dir
  · rw [if_pos hne]
  · rw [if_neg hne]
    push_neg at hne
    rw [← hne]

/-- C5: on every exit of an action scope — the body's `Ok` and error results
alike — the scope's context is popped from the body's final state and the
process working directory is restored to exactly the directory recorded at
scope entry (the caller's `cwd`); the body's result is passed through
unchanged. -/
theorem action_scope_exit_restores (wd : Option String)
    (body : EngineSt → Except String Unit × EngineSt) (s : EngineSt) :
    (runScope wd body s).1 = (body (scopeStart wd s).2).1
    ∧ (runScope wd body s).2.cwd = s.cwd
    ∧ (runScope wd body s).2.exec.contexts
      = ((body (scopeStart wd s).2).2).exec.contexts.tail := by
  refine ⟨rfl, ?_, rfl⟩
  unfold runScope
  rw [scopeStart_eq]
  rfl

/-- C3: with a parent scope opened on directory `A` and a child triggered on
directory `B` from inside the parent's action: the parent's action runs with
the working directory `A`; the nested guard accepts the trigger and the
child's action runs with the working directory `B`; whatever the child's
body does and however it exits, the working directory is `A` again after the
triggered scope returns; and after the parent's scope exits it is the
directory that was current at launch. -/
theorem nested_trigger_dir_scoping (s : EngineSt) (A B : String)
    (child : EngineSt → Except String Unit × EngineSt) :
    ((scopeStart (some A) s).2.cwd = A)
    ∧ (scopeStartNested "trigger()" (some B) ((scopeStart (some A) s).2)
        = .ok (scopeStart (some B) ((scopeStart (some A) s).2)))
    ∧ ((scopeStart (some B) ((scopeStart (some A) s).2)).2.cwd = B)
    ∧ ((runNestedScope "trigger()" (some B) child
        ((scopeStart (some A) s).2)).2.cwd = A)
    ∧ ((runScope (some A)
        (fun t => runNestedScope "trigger()" (some B) child t) s).2.cwd
      = s.cwd) := by
  refine ⟨?_, ?_, ?_, ?_, ?_⟩
  · rw [scopeStart_eq]
    rfl
  · rw [scopeStart_eq (some A) s]
    rfl
  · rw [scopeStart_eq (some A) s, scopeStart_eq]
    rfl
  · unfold runNestedScope scopeStartNested
    rw [scopeStart_eq (some A) s]
    rw [scopeStart_eq (some B)]
    rfl
  · unfold runScope
    rw [scopeStart_eq (some A) s]
    rfl

/-- Embedding of `trigger_impl` from `src/engine/runtime.rs` lines 36-111
(the copy in `src/engine/bindings.rs` lines 145-222 has the same structure):
resolve the name; on `Found`, bind the arguments, check the actions-only
guard, and either run the stored action inside a nested scope or print a
no-actions warning and succeed; on `Ambiguous` or `NotFound`, print console
warnings and return `Ok(())`.  The foreign `call_within_context` invocation
is the `invoke` parameter; printed warnings are collected in the result's
third component.  The nested scope's working directory follows the spec
(`runNestedScope`'s doc comment). -/
def trigger_impl (reg : TaskRegistry)
    (invoke : Nat → List String → EngineSt → Except String Unit × EngineSt)
    (name : String) (positional : List String)
    (named : List (String × String)) (s : EngineSt) :
    Except String Unit × EngineSt × List String :=
  match resolve_task reg name with
  | .Found full_path =>
    match prepare_arguments_from_parts reg full_path positional named with
    | .error e => (.error e, s, [])
    | .ok args =>
      if !(is_active s.exec) then
        (.error "trigger() can only be used inside actions().", s, [])
      else
        match (alistGet reg.tasks full_path).bind (fun t => t.actions) with
        | some f =>
          let wd := (alistGet reg.tasks full_path).bind (fun t => t.working_dir)
          let out := runNestedScope "trigger()" wd (invoke f args) s
          (out.1, out.2, [])
        | none =>
          (.ok (), s,
            ["Task '" ++ full_path ++ "' has no actions() registered."])
  | .Ambiguous candidates =>
    (.ok (), s,
      ("Task '" ++ name ++ "' matches multiple candidates:")
        :: candidates.map (fun c => "  - " ++ c)
        ++ ["Please use the fully-qualified name (e.g. group.task)."])
  | .NotFound => (.ok (), s, ["Task '" ++ name ++ "' does not exist."])

/-- C4, evaluated at the failing inputs: a trigger whose target resolves to
`NotFound` or to `Ambiguous` returns `Ok(())` after printing console
warnings — the error does not propagate up the call chain, contradicting the
claim and the repository's own tests. -/
theorem trigger_lookup_failure_returns_ok :
    (trigger_impl {} (fun _ _ t => (.ok (), t)) "missing_task" [] []
        { cwd := "/base", exec := { contexts := [⟨none⟩], base_dir := "/base" } }
      = (.ok (),
          { cwd := "/base", exec := { contexts := [⟨none⟩], base_dir := "/base" } },
          ["Task 'missing_task' does not exist."]))
    ∧ (trigger_impl { tasks := [("build.deploy", {}), ("ops.deploy", {})] }
        (fun _ _ t => (.ok (), t)) "deploy" [] []
        { cwd := "/base", exec := { contexts := [⟨none⟩], base_dir := "/base" } }
      = (.ok (),
          { cwd := "/base", exec := { contexts := [⟨none⟩], base_dir := "/base" } },
          ["Task 'deploy' matches multiple candidates:",
            "  - build.deploy", "  - ops.deploy",
            "Please use the fully-qualified name (e.g. group.task)."])) :=
  ⟨rfl, rfl⟩

end Rhask
